import Mathlib

/-!
Shallow embedding of the `oapi_builder` package (files `oapi_builder/fields.py`,
`oapi_builder/models.py`, `oapi_builder/utils.py`) and proofs about it.

Python dictionaries are modelled as insertion-ordered association lists
`List (String × Val)` whose key lookup returns the first occurrence; Python
runtime values appearing inside those dictionaries are modelled by the
inductive type `Val`.  Python constructors that can raise (`assert`,
`HTTPStatus(...)`, attribute errors) are modelled as `Option`-returning
functions, `none` meaning the construction raised.
-/

namespace OapiBuilder

/-- A Python runtime value as it can occur in the mappings this library builds:
`None`, a string, an int, a bool, a list, or a dict (insertion ordered). -/
inductive Val where
  | none
  | s (v : String)
  | i (v : Int)
  | b (v : Bool)
  | list (vs : List Val)
  | dict (d : List (String × Val))

/-- Python truthiness test (`bool(v)`) restricted to the values of `Val`:
`None`, `""`, `0`, `False`, `[]` and `` {} `` are falsy, everything else truthy. -/
def pyTruthy : Val → Bool
  | .none => false
  | .s v => !(v == "")
  | .i v => !(v == 0)
  | .b v => v
  | .list vs => !vs.isEmpty
  | .dict d => !d.isEmpty

/-- `d.get(key)` / `d[key]` on a Python dict: value at the first occurrence of
`key`, if any. -/
def dlookup : List (String × Val) → String → Option Val
  | [], _ => Option.none
  | (k, v) :: rest, key => if k = key then some v else dlookup rest key

/-- `d.pop(key, None)` on a Python dict: the removed value (if the key was
present) together with the dict with the first occurrence of `key` removed. -/
def dpop : List (String × Val) → String → Option Val × List (String × Val)
  | [], _ => (Option.none, [])
  | (k, v) :: rest, key =>
    if k = key then (some v, rest)
    else
      let r := dpop rest key
      (r.1, (k, v) :: r.2)

/-- `d[key] = val` on a Python dict: update the value at an existing key in
place (keeping its position), otherwise append the new entry at the end. -/
def dset : List (String × Val) → String → Val → List (String × Val)
  | [], key, val => [(key, val)]
  | (k, v) :: rest, key, val =>
    if k = key then (k, val) :: rest else (k, v) :: dset rest key val

/-- `a | b` on Python dicts (PEP 584): start from `a` and write every entry of
`b` over it, so entries of `b` win on common keys. -/
def dunion (a b : List (String × Val)) : List (String × Val) :=
  b.foldl (fun acc kv => dset acc kv.1 kv.2) a

/-- The keys of a modelled dict, in order. -/
def dkeys (d : List (String × Val)) : List String := d.map Prod.fst

/-- The members of Python's `http.HTTPStatus` enum, as `(value, phrase)` pairs,
in the order the enum declares them (which is ascending numeric order of the
status code).  `ResponseObject.__post_init__` and `ResponseObject.get_defaults`
iterate or look up this table. -/
def httpStatusTable : List (Int × String) :=
  [(100, "Continue"), (101, "Switching Protocols"), (102, "Processing"),
   (103, "Early Hints"),
   (200, "OK"), (201, "Created"), (202, "Accepted"),
   (203, "Non-Authoritative Information"), (204, "No Content"),
   (205, "Reset Content"), (206, "Partial Content"), (207, "Multi-Status"),
   (208, "Already Reported"), (226, "IM Used"),
   (300, "Multiple Choices"), (301, "Moved Permanently"), (302, "Found"),
   (303, "See Other"), (304, "Not Modified"), (305, "Use Proxy"),
   (307, "Temporary Redirect"), (308, "Permanent Redirect"),
   (400, "Bad Request"), (401, "Unauthorized"), (402, "Payment Required"),
   (403, "Forbidden"), (404, "Not Found"), (405, "Method Not Allowed"),
   (406, "Not Acceptable"), (407, "Proxy Authentication Required"),
   (408, "Request Timeout"), (409, "Conflict"), (410, "Gone"),
   (411, "Length Required"), (412, "Precondition Failed"),
   (413, "Request Entity Too Large"), (414, "Request-URI Too Long"),
   (415, "Unsupported Media Type"), (416, "Requested Range Not Satisfiable"),
   (417, "Expectation Failed"), (418, "I'm a Teapot"),
   (421, "Misdirected Request"), (422, "Unprocessable Entity"),
   (423, "Locked"), (424, "Failed Dependency"), (425, "Too Early"),
   (426, "Upgrade Required"), (428, "Precondition Required"),
   (429, "Too Many Requests"), (431, "Request Header Fields Too Large"),
   (451, "Unavailable For Legal Reasons"),
   (500, "Internal Server Error"), (501, "Not Implemented"),
   (502, "Bad Gateway"), (503, "Service Unavailable"),
   (504, "Gateway Timeout"), (505, "HTTP Version Not Supported"),
   (506, "Variant Also Negotiates"), (507, "Insufficient Storage"),
   (508, "Loop Detected"), (510, "Not Extended"),
   (511, "Network Authentication Required")]

/-- `HTTPStatus(code).phrase`: the reason phrase of a recognized status code,
`none` when `HTTPStatus(code)` would raise `ValueError`. -/
def lookupPhrase (code : Int) : Option String :=
  (httpStatusTable.find? (fun p => p.1 == code)).map Prod.snd

/-- `isinstance(v, int)` in Python (`bool` is a subclass of `int`). -/
def pyIsInt : Val → Bool
  | .i _ => true
  | .b _ => true
  | _ => false

/-- Python `n == v` for an `int` `n` against a value of `Val`
(`True == 1`, `False == 0`). -/
def pyIntEq (n : Int) : Val → Bool
  | .i m => n == m
  | .b b => n == (if b then (1 : Int) else 0)
  | _ => false

/-- Python `n in l` for an `int` `n` and a list `l`. -/
def pyIntMem (n : Int) (l : List Val) : Bool := l.any (pyIntEq n)

/-- `models.ResponseObject` after `__post_init__` has run (`_is_camelback` is
`False` for this class).  `description` holds the value after the
reason-phrase defaulting; `links`, `content` and `headers` model the
`_links` / `_content` / `_headers` backing stores exposed by the `links`,
`content` and `headers` properties (already-flattened mappings). -/
structure ResponseObject where
  status_code : Int
  description : String
  tags : List Val
  links : List Val
  content : List (String × Val)
  headers : List (String × Val)

/-- Constructing `ResponseObject(status_code, description, tags)` (the dataclass
`__init__` followed by `__post_init__`): when `description` is `None` or empty,
it is replaced by `HTTPStatus(status_code).phrase`; an unrecognized
`status_code` then raises, modelled as `none`.  `_links`, `_content` and
`_headers` start out as fresh empty containers. -/
def ResponseObject.make (status_code : Int) (description : Option String)
    (tags : List Val) : Option ResponseObject :=
  let d := description.getD ""
  if d == "" then
    match lookupPhrase status_code with
    | some p => some ⟨status_code, p, tags, [], [], []⟩
    | Option.none => Option.none
  else some ⟨status_code, d, tags, [], [], []⟩

/-- `BaseObject.to_dict` specialized to a `ResponseObject`: `dir(self)` yields
the public non-callable attributes in sorted (alphabetical) name order —
`content`, `description`, `headers`, `links`, `status_code`, `tags` — and the
comprehension keeps, in that encounter order, exactly the truthy ones;
`_is_camelback` is `False` so keys are not case-transformed. -/
def ResponseObject.baseToDict (r : ResponseObject) : List (String × Val) :=
  ([("content", Val.dict r.content), ("description", Val.s r.description),
    ("headers", Val.dict r.headers), ("links", Val.list r.links),
    ("status_code", Val.i r.status_code), ("tags", Val.list r.tags)]).filter
    (fun p => pyTruthy p.2)

/-- `ResponseObject.to_dict`: the base flattening with `status_code` popped
from the freshly built mapping. -/
def ResponseObject.toDict (r : ResponseObject) : List (String × Val) :=
  (dpop (r.baseToDict) "status_code").2

/-- `ResponseObject.to_dict` with the state of the receiver made explicit: the
method reads the node's attributes to build a fresh mapping, pops
`status_code` from that fresh mapping only, and leaves the node as it was.
Returns (result, receiver-after-call). -/
def ResponseObject.toDictS (r : ResponseObject) :
    (List (String × Val)) × ResponseObject :=
  let base := r.baseToDict
  let res := (dpop base "status_code").2
  (res, r)

/-- `ResponseObject.get_defaults(status_list)`: asserts every element is an
`int` (raising, i.e. `none`, otherwise), then walks the `HTTPStatus` enum in
declaration order and emits one defaulted `ResponseObject` per member whose
value occurs in `status_list`. -/
def ResponseObject.get_defaults (status_list : List Val) :
    Option (List ResponseObject) :=
  if status_list.all pyIsInt then
    some ((httpStatusTable.filter (fun p => pyIntMem p.1 status_list)).map
      (fun p => ⟨p.1, p.2, [], [], [], []⟩))
  else Option.none

/-- The possible inputs of `fields.validate(value, expected_type)` with
`expected_type = ResponseObject`: a raw mapping, an `OAPIObjectAttr`
(unset-descriptor sentinel), or an already-constructed node. -/
inductive ValidateInput where
  | dict (d : List (String × Val))
  | attr
  | node (r : ResponseObject)

/-- The possible results of `fields.validate`: a raised exception, the
`OAPIObjectAttr` sentinel returned unchanged, a node returned as such, or a
flattened mapping. -/
inductive ValidateOutput where
  | error
  | attr
  | node (r : ResponseObject)
  | dict (d : List (String × Val))

/-- `fields.validate(value, ResponseObject)`.  A mapping input makes the code
read `ResponseObject._alias_map`, an attribute no class in `models.py`
defines, so that branch raises `AttributeError` (modelled `.error`).  An
`OAPIObjectAttr` input is returned unchanged by the `elif` branch.  Any other
input that is a `ResponseObject` instance falls through every branch and the
function returns `value.to_dict()` — the flattened mapping, not the node. -/
def validateResponse : ValidateInput → ValidateOutput
  | .dict _ => .error
  | .attr => .attr
  | .node r => .dict r.toDict

/-- `OAPIObjectAttr.__get__(self, instance, owner)` for a live instance,
acting on the instance's attribute store `instDict` (`instance.__dict__`):
`instance.__dict__.get(self.name, instance.__dict__)` — the stored value when
the attribute was assigned, otherwise the whole attribute store itself.  A
total function: the read never raises. -/
def OAPIObjectAttr.get (name : String) (instDict : List (String × Val)) : Val :=
  match dlookup instDict name with
  | some v => v
  | Option.none => Val.dict instDict

/-- `models.ParameterObject` after `__post_init__`. -/
structure ParameterObject where
  name : String
  schema : Val
  parameter_in : String
  description : Option String
  required : Bool
  deprecated : Bool
  allow_empty_value : Bool

/-- Constructing `ParameterObject(...)`: `__post_init__` asserts
`parameter_in` is one of query/header/path/cookie (raising — `none` —
otherwise) and then runs `self.required = self.required or
bool(self.parameter_in == 'path')`, so a falsy caller-supplied `required`
(`None` or `False`) is replaced by whether the parameter is a path
parameter. -/
def ParameterObject.make (name : String) (schema : Val) (parameter_in : String)
    (description : Option String) (required : Option Bool) (deprecated : Bool)
    (allow_empty_value : Bool) : Option ParameterObject :=
  if parameter_in ∈ ["query", "header", "path", "cookie"] then
    some { name := name, schema := schema, parameter_in := parameter_in,
           description := description,
           required := (match required with
                        | some true => true
                        | _ => parameter_in == "path"),
           deprecated := deprecated, allow_empty_value := allow_empty_value }
  else Option.none

/-- `SecuritySchemeObject.__post_init__` as the predicate "construction does
not raise".  Mirrors the source's `elif` chain, including that the `flows`
assertion guards the literal string `'oath2'` (not `'oauth2'`), and that the
`openIdConnect` branch reads the undefined attribute `self.openIdConnectUrl`
(an `AttributeError`, so that branch always raises). -/
def SecuritySchemeObject.postInitOk (type : String) (scheme : Option String)
    (name : Option String) (flows : List (String × Val))
    (key_in : Option String) : Bool :=
  (type ∈ ["apiKey", "http", "oauth2", "openIdConnect"] : Bool) &&
  (if type == "apiKey" then
     (match name with | some n => !(n == "") | Option.none => false) &&
     (match key_in with
      | some k => k ∈ (["query", "header", "cookie"] : List String)
      | Option.none => false)
   else if type == "http" then
     (match scheme with | some s => !(s == "") | Option.none => false)
   else if type == "oath2" then !flows.isEmpty
   else if type == "openIdConnect" then false
   else true)

/-- One step of the alias loop in `fields.validate` for the alias-table entry
`(ext, int)` (external key `k`, internal key `_alias_map[k]`):
`if alias_val := value.pop(k, None): value[_alias_map[k]] = alias_val` —
the external key is always removed; the value is re-inserted under the
internal key only when it is truthy. -/
def aliasStep (ext int : String) (d : List (String × Val)) :
    List (String × Val) :=
  match (dpop d ext).1 with
  | some v => if pyTruthy v then dset (dpop d ext).2 int v else (dpop d ext).2
  | Option.none => (dpop d ext).2

/-- The whole alias loop of `fields.validate` over the items of
`expected_type._alias_map` (first components external keys, second components
the internal keys they rename to), mutating the caller's mapping. -/
def aliasResolve (m : List (String × String)) (d : List (String × Val)) :
    List (String × Val) :=
  m.foldl (fun acc kv => aliasStep kv.1 kv.2 acc) d

/-- Strict lexicographic comparison of two character sequences by code
point: exactly Python's `<` on strings. -/
def strLtB : List Char → List Char → Bool
  | [], [] => false
  | [], _ :: _ => true
  | _ :: _, [] => false
  | a :: as, b :: bs =>
    if a.toNat < b.toNat then true
    else if b.toNat < a.toNat then false
    else strLtB as bs

/-- Non-strict lexicographic comparison by code point: Python's `<=` on
strings. -/
def strLeB : List Char → List Char → Bool
  | [], _ => true
  | _ :: _, [] => false
  | a :: as, b :: bs =>
    if a.toNat < b.toNat then true
    else if b.toNat < a.toNat then false
    else strLeB as bs

/-- Python's `s1 < s2` for strings. -/
def pyStrLt (a b : String) : Bool := strLtB a.toList b.toList

/-- Python's `s1 <= s2` for strings. -/
def pyStrLe (a b : String) : Bool := strLeB a.toList b.toList

/-- Stable insertion of one entry into a run of entries sorted by key:
used to model Python's `sorted` on the `(key, value)` items of a dict whose
keys are distinct (so only keys are ever compared). -/
def insertByKey (p : String × Val) : List (String × Val) → List (String × Val)
  | [] => [p]
  | q :: rest =>
    if pyStrLe q.1 p.1 then q :: insertByKey p rest else p :: q :: rest

/-- `sorted(d.items())` for a dict with distinct keys: stable sort ascending
by lexicographic string order of the keys. -/
def sortByKey (d : List (String × Val)) : List (String × Val) :=
  d.foldr insertByKey []

/-- `models.OperationObject` (only the state `upsert_responses` touches is
kept live here; `_responses` maps the decimal status-code string to the
already-flattened response mapping). -/
structure OperationObject where
  description : String
  summary : Option String
  tags : List Val
  security : List Val
  deprecated : Bool
  request_body : List (String × Val)
  responses : List (String × Val)

/-- `OperationObject.upsert_responses(responses)` for a batch of
`ResponseObject`s: build `{str(r.status_code): r.to_dict() for r in
list(responses)}` (later duplicates overwrite, first occurrence keeps its
position), overlay the current `_responses` on top of it with `|` (so
existing entries win), and store `OrderedDict(sorted(...))` of the result. -/
def OperationObject.upsert_responses (op : OperationObject)
    (responses : List ResponseObject) : OperationObject :=
  let newMap := responses.foldl
    (fun acc r => dset acc (toString r.status_code) (Val.dict r.toDict)) []
  { op with responses := sortByKey (dunion newMap op.responses) }

/-- The mapping serialized from the public declared dataclass fields of
`ResponseObject` in declaration order (`status_code`, `description`, `tags`),
with the same truthiness filter.  This definition follows the specification's
words ("declaration order" enumeration in §4.5 step 1); the code's actual
enumeration is `ResponseObject.baseToDict`. -/
def ResponseObject.toDictDeclOrder (r : ResponseObject) : List (String × Val) :=
  ([("status_code", Val.i r.status_code),
    ("description", Val.s r.description),
    ("tags", Val.list r.tags)]).filter (fun p => pyTruthy p.2)

/-- An `OperationObject` whose responses map already holds a `"200"` entry
(the specification's upsert-precedence example). -/
def upsertExampleOp : OperationObject :=
  ⟨"List widgets", Option.none, [], [], false, [],
   [("200", Val.dict [("description", Val.s "original")])]⟩

/-- A batch upserting a conflicting `200` and a fresh `201` response. -/
def upsertExampleBatch : List ResponseObject :=
  [⟨200, "X", [], [], [], []⟩, ⟨201, "Y", [], [], [], []⟩]

theorem dkeys_nil : dkeys [] = [] := rfl

theorem dkeys_cons (k : String) (v : Val) (d : List (String × Val)) :
    dkeys ((k, v) :: d) = k :: dkeys d := rfl

theorem dlookup_cons_self (k : String) (v : Val) (d : List (String × Val)) :
    dlookup ((k, v) :: d) k = some v := by
  simp [dlookup]

theorem dlookup_cons_ne (k0 k : String) (v0 : Val) (d : List (String × Val))
    (h : ¬ k0 = k) : dlookup ((k0, v0) :: d) k = dlookup d k := by
  simp [dlookup, h]

theorem dset_nil (k : String) (v : Val) : dset [] k v = [(k, v)] := rfl

theorem dset_cons_self (k : String) (v0 v : Val) (d : List (String × Val)) :
    dset ((k, v0) :: d) k v = (k, v) :: d := by
  simp [dset]

theorem dset_cons_ne (k0 k : String) (v0 v : Val) (d : List (String × Val))
    (h : ¬ k0 = k) : dset ((k0, v0) :: d) k v = (k0, v0) :: dset d k v := by
  simp [dset, h]

theorem dpop_nil (k : String) : dpop [] k = (Option.none, []) := rfl

theorem dpop_cons_self (k : String) (v : Val) (d : List (String × Val)) :
    dpop ((k, v) :: d) k = (some v, d) := by
  simp [dpop]

theorem dpop_cons_ne (k0 k : String) (v0 : Val) (d : List (String × Val))
    (h : ¬ k0 = k) :
    dpop ((k0, v0) :: d) k = ((dpop d k).1, (k0, v0) :: (dpop d k).2) := by
  simp [dpop, h]

theorem dlookup_dset_self (d : List (String × Val)) (k : String) (v : Val) :
    dlookup (dset d k v) k = some v := by
  induction d with
  | nil => rw [dset_nil, dlookup_cons_self]
  | cons hd tl ih =>
    obtain ⟨k0, v0⟩ := hd
    by_cases h : k0 = k
    · subst h
      rw [dset_cons_self, dlookup_cons_self]
    · rw [dset_cons_ne k0 k v0 v tl h, dlookup_cons_ne k0 k v0 _ h, ih]

theorem dlookup_dset_other (d : List (String × Val)) (k k' : String) (v : Val)
    (h : k' ≠ k) : dlookup (dset d k v) k' = dlookup d k' := by
  have h' : ¬ k = k' := fun hh => h hh.symm
  induction d with
  | nil =>
    rw [dset_nil, dlookup_cons_ne k k' v _ h']
  | cons hd tl ih =>
    obtain ⟨k0, v0⟩ := hd
    by_cases h0 : k0 = k
    · subst h0
      rw [dset_cons_self, dlookup_cons_ne k0 k' v _ h',
          dlookup_cons_ne k0 k' v0 _ h']
    · by_cases h1 : k0 = k'
      · subst h1
        rw [dset_cons_ne k0 k v0 v tl h0, dlookup_cons_self,
            dlookup_cons_self]
      · rw [dset_cons_ne k0 k v0 v tl h0, dlookup_cons_ne k0 k' v0 _ h1,
            dlookup_cons_ne k0 k' v0 _ h1, ih]

theorem dpop_fst (d : List (String × Val)) (k : String) :
    (dpop d k).1 = dlookup d k := by
  induction d with
  | nil => rfl
  | cons hd tl ih =>
    obtain ⟨k0, v0⟩ := hd
    by_cases h0 : k0 = k
    · subst h0
      rw [dpop_cons_self, dlookup_cons_self]
    · rw [dpop_cons_ne k0 k v0 tl h0, dlookup_cons_ne k0 k v0 tl h0]
      exact ih

theorem dlookup_dpop_other (d : List (String × Val)) (k k' : String)
    (h : k' ≠ k) : dlookup (dpop d k).2 k' = dlookup d k' := by
  induction d with
  | nil => rfl
  | cons hd tl ih =>
    obtain ⟨k0, v0⟩ := hd
    by_cases h0 : k0 = k
    · subst h0
      have h' : ¬ k0 = k' := fun hh => h (hh.symm)
      rw [dpop_cons_self, dlookup_cons_ne k0 k' v0 tl h']
    · rw [dpop_cons_ne k0 k v0 tl h0]
      by_cases h1 : k0 = k'
      · subst h1
        rw [dlookup_cons_self, dlookup_cons_self]
      · rw [dlookup_cons_ne k0 k' v0 _ h1, dlookup_cons_ne k0 k' v0 _ h1, ih]

theorem dlookup_eq_none_iff (d : List (String × Val)) (k : String) :
    dlookup d k = Option.none ↔ k ∉ dkeys d := by
  induction d with
  | nil => simp [dlookup, dkeys]
  | cons hd tl ih =>
    obtain ⟨k0, v0⟩ := hd
    rw [dkeys_cons]
    by_cases h0 : k0 = k
    · subst h0
      rw [dlookup_cons_self]
      simp
    · have h0' : ¬ k = k0 := fun hh => h0 hh.symm
      rw [dlookup_cons_ne k0 k v0 tl h0, ih, List.mem_cons]
      simp [h0']

theorem dlookup_dpop_self (d : List (String × Val)) (k : String)
    (h : (dkeys d).Nodup) : dlookup (dpop d k).2 k = Option.none := by
  induction d with
  | nil => rfl
  | cons hd tl ih =>
    obtain ⟨k0, v0⟩ := hd
    rw [dkeys_cons, List.nodup_cons] at h
    by_cases h0 : k0 = k
    · subst h0
      rw [dpop_cons_self]
      exact (dlookup_eq_none_iff tl k0).2 h.1
    · rw [dpop_cons_ne k0 k v0 tl h0, dlookup_cons_ne k0 k v0 _ h0]
      exact ih h.2

theorem dkeys_dset (d : List (String × Val)) (k : String) (v : Val)
    (k' : String) : k' ∈ dkeys (dset d k v) ↔ k' = k ∨ k' ∈ dkeys d := by
  induction d with
  | nil => simp [dset_nil, dkeys]
  | cons hd tl ih =>
    obtain ⟨k0, v0⟩ := hd
    by_cases h0 : k0 = k
    · subst h0
      rw [dset_cons_self, dkeys_cons, dkeys_cons]
      simp only [List.mem_cons]
      tauto
    · rw [dset_cons_ne k0 k v0 v tl h0, dkeys_cons, dkeys_cons]
      simp only [List.mem_cons]
      rw [ih]
      tauto

theorem dkeys_dset_nodup (d : List (String × Val)) (k : String) (v : Val)
    (h : (dkeys d).Nodup) : (dkeys (dset d k v)).Nodup := by
  induction d with
  | nil => simp [dset_nil, dkeys]
  | cons hd tl ih =>
    obtain ⟨k0, v0⟩ := hd
    rw [dkeys_cons, List.nodup_cons] at h
    by_cases h0 : k0 = k
    · subst h0
      rw [dset_cons_self, dkeys_cons, List.nodup_cons]
      exact ⟨h.1, h.2⟩
    · rw [dset_cons_ne k0 k v0 v tl h0, dkeys_cons, List.nodup_cons]
      refine ⟨?_, ih h.2⟩
      intro hmem
      rcases (dkeys_dset tl k v k0).1 hmem with rfl | hh
      · exact h0 rfl
      · exact h.1 hh

theorem dunion_nil (a : List (String × Val)) : dunion a [] = a := rfl

theorem dunion_cons (a : List (String × Val)) (k : String) (v : Val)
    (b : List (String × Val)) :
    dunion a ((k, v) :: b) = dunion (dset a k v) b := rfl

theorem dlookup_dunion_not_right (a b : List (String × Val)) (k : String)
    (h : k ∉ dkeys b) : dlookup (dunion a b) k = dlookup a k := by
  induction b generalizing a with
  | nil => rfl
  | cons hd tl ih =>
    obtain ⟨k0, v0⟩ := hd
    rw [dkeys_cons, List.mem_cons] at h
    push_neg at h
    rw [dunion_cons, ih _ h.2, dlookup_dset_other a k0 k v0 h.1]

theorem dlookup_dunion_right (a b : List (String × Val)) (k : String)
    (hb : (dkeys b).Nodup) (h : k ∈ dkeys b) :
    dlookup (dunion a b) k = dlookup b k := by
  induction b generalizing a with
  | nil => cases h
  | cons hd tl ih =>
    obtain ⟨k0, v0⟩ := hd
    rw [dkeys_cons, List.nodup_cons] at hb
    rw [dkeys_cons, List.mem_cons] at h
    by_cases h0 : k = k0
    · subst h0
      rw [dunion_cons, dlookup_dunion_not_right _ _ _ hb.1,
          dlookup_dset_self, dlookup_cons_self]
    · have hmem : k ∈ dkeys tl := by
        rcases h with h | h
        · exact absurd h h0
        · exact h
      have h0' : ¬ k0 = k := fun hh => h0 hh.symm
      rw [dunion_cons, ih _ hb.2 hmem, dlookup_cons_ne k0 k v0 tl h0']

theorem dkeys_dunion_nodup (a b : List (String × Val))
    (ha : (dkeys a).Nodup) : (dkeys (dunion a b)).Nodup := by
  induction b generalizing a with
  | nil => exact ha
  | cons hd tl ih =>
    obtain ⟨k0, v0⟩ := hd
    rw [dunion_cons]
    exact ih _ (dkeys_dset_nodup a k0 v0 ha)

theorem mem_dkeys_dunion (a b : List (String × Val)) (k : String) :
    k ∈ dkeys (dunion a b) ↔ k ∈ dkeys a ∨ k ∈ dkeys b := by
  induction b generalizing a with
  | nil => simp [dunion_nil, dkeys]
  | cons hd tl ih =>
    obtain ⟨k0, v0⟩ := hd
    rw [dunion_cons, ih, dkeys_dset, dkeys_cons, List.mem_cons]
    tauto

theorem strLeB_total (a b : List Char) :
    strLeB a b = true ∨ strLeB b a = true := by
  induction a generalizing b with
  | nil => exact Or.inl rfl
  | cons x xs ih =>
    cases b with
    | nil => exact Or.inr rfl
    | cons y ys =>
      by_cases h1 : x.toNat < y.toNat
      · left
        simp [strLeB, h1]
      · by_cases h2 : y.toNat < x.toNat
        · right
          simp [strLeB, h2]
        · rcases ih ys with h | h
          · left
            simp [strLeB, h1, h2, h]
          · right
            simp [strLeB, h1, h2, h]

theorem strLeB_trans (a : List Char) : ∀ b c : List Char,
    strLeB a b = true → strLeB b c = true → strLeB a c = true := by
  induction a with
  | nil => exact fun b c _ _ => rfl
  | cons x xs ih =>
    intro b c hab hbc
    cases b with
    | nil => simp [strLeB] at hab
    | cons y ys =>
      cases c with
      | nil => simp [strLeB] at hbc
      | cons z zs =>
        simp only [strLeB] at hab hbc ⊢
        by_cases h1 : x.toNat < y.toNat
        · by_cases h2 : y.toNat < z.toNat
          · rw [if_pos (Nat.lt_trans h1 h2)]
          · rw [if_neg h2] at hbc
            by_cases h3 : z.toNat < y.toNat
            · rw [if_pos h3] at hbc
              exact absurd hbc (by simp)
            · have hyz : y.toNat = z.toNat :=
                Nat.le_antisymm (Nat.not_lt.1 h3) (Nat.not_lt.1 h2)
              rw [if_pos (hyz ▸ h1)]
        · rw [if_neg h1] at hab
          by_cases h4 : y.toNat < x.toNat
          · rw [if_pos h4] at hab
            exact absurd hab (by simp)
          · have hxy : x.toNat = y.toNat :=
              Nat.le_antisymm (Nat.not_lt.1 h4) (Nat.not_lt.1 h1)
            rw [if_neg h4] at hab
            by_cases h2 : y.toNat < z.toNat
            · rw [if_pos (hxy ▸ h2)]
            · rw [if_neg h2] at hbc
              by_cases h3 : z.toNat < y.toNat
              · rw [if_pos h3] at hbc
                exact absurd hbc (by simp)
              · have hyz : y.toNat = z.toNat :=
                  Nat.le_antisymm (Nat.not_lt.1 h3) (Nat.not_lt.1 h2)
                rw [if_neg (by rw [hxy, hyz]; exact Nat.lt_irrefl _),
                    if_neg (by rw [hxy, hyz]; exact Nat.lt_irrefl _)]
                rw [if_neg h3] at hbc
                exact ih ys zs hab hbc

theorem pyStrLe_total (a b : String) :
    pyStrLe a b = true ∨ pyStrLe b a = true :=
  strLeB_total a.toList b.toList

theorem pyStrLe_trans (a b c : String) (hab : pyStrLe a b = true)
    (hbc : pyStrLe b c = true) : pyStrLe a c = true :=
  strLeB_trans a.toList b.toList c.toList hab hbc

theorem insertByKey_perm (p : String × Val) (l : List (String × Val)) :
    List.Perm (insertByKey p l) (p :: l) := by
  induction l with
  | nil => rfl
  | cons q rest ih =>
    by_cases h : pyStrLe q.1 p.1 = true
    · rw [insertByKey, if_pos h]
      exact List.Perm.trans (ih.cons q) (List.Perm.swap p q rest)
    · rw [insertByKey, if_neg h]

theorem insertByKey_pairwise (p : String × Val) (l : List (String × Val))
    (h : l.Pairwise (fun x y => pyStrLe x.1 y.1 = true)) :
    (insertByKey p l).Pairwise (fun x y => pyStrLe x.1 y.1 = true) := by
  induction l with
  | nil => simp [insertByKey]
  | cons q rest ih =>
    rw [List.pairwise_cons] at h
    by_cases hle : pyStrLe q.1 p.1 = true
    · rw [insertByKey, if_pos hle, List.pairwise_cons]
      refine ⟨?_, ih h.2⟩
      intro x hx
      rcases List.mem_cons.1 ((insertByKey_perm p rest).mem_iff.1 hx)
        with rfl | hx
      · exact hle
      · exact h.1 x hx
    · rw [insertByKey, if_neg hle, List.pairwise_cons]
      have hpq : pyStrLe p.1 q.1 = true := by
        rcases pyStrLe_total q.1 p.1 with hh | hh
        · exact absurd hh hle
        · exact hh
      refine ⟨?_, List.pairwise_cons.2 h⟩
      intro x hx
      rcases List.mem_cons.1 hx with rfl | hx
      · exact hpq
      · exact pyStrLe_trans _ _ _ hpq (h.1 x hx)

theorem sortByKey_perm (d : List (String × Val)) :
    List.Perm (sortByKey d) d := by
  induction d with
  | nil => rfl
  | cons p rest ih =>
    exact List.Perm.trans (insertByKey_perm p _) (ih.cons p)

theorem sortByKey_pairwise (d : List (String × Val)) :
    (sortByKey d).Pairwise (fun x y => pyStrLe x.1 y.1 = true) := by
  induction d with
  | nil => simp [sortByKey]
  | cons p rest ih => exact insertByKey_pairwise p _ ih

theorem dlookup_eq_some_iff (d : List (String × Val)) (k : String) (v : Val)
    (h : (dkeys d).Nodup) : dlookup d k = some v ↔ (k, v) ∈ d := by
  induction d with
  | nil => simp [dlookup]
  | cons hd tl ih =>
    obtain ⟨k0, v0⟩ := hd
    rw [dkeys_cons, List.nodup_cons] at h
    by_cases h0 : k0 = k
    · subst h0
      rw [dlookup_cons_self, List.mem_cons]
      constructor
      · intro hv
        cases Option.some_inj.1 hv
        exact Or.inl rfl
      · rintro (hv | hv)
        · cases hv
          rfl
        · exact absurd (List.mem_map_of_mem Prod.fst hv) h.1
    · rw [dlookup_cons_ne k0 k v0 tl h0, ih h.2, List.mem_cons]
      constructor
      · exact fun hv => Or.inr hv
      · rintro (hv | hv)
        · cases hv
          exact absurd rfl h0
        · exact hv

theorem dlookup_perm (d d' : List (String × Val)) (k : String)
    (h : (dkeys d).Nodup) (hp : List.Perm d' d) :
    dlookup d' k = dlookup d k := by
  have hkeys : List.Perm (dkeys d') (dkeys d) := hp.map Prod.fst
  have h' : (dkeys d').Nodup := (hkeys.nodup_iff).2 h
  cases e : dlookup d k with
  | none =>
    have hnm := (dlookup_eq_none_iff d k).1 e
    exact (dlookup_eq_none_iff d' k).2 (fun hm => hnm (hkeys.mem_iff.1 hm))
  | some v =>
    have hm := (dlookup_eq_some_iff d k v h).1 e
    exact (dlookup_eq_some_iff d' k v h').2 (hp.mem_iff.2 hm)

theorem respFold_mem (rs : List ResponseObject) (acc : List (String × Val))
    (k : String) :
    (k ∈ dkeys (rs.foldl
        (fun a r => dset a (toString r.status_code) (Val.dict r.toDict)) acc)
      ↔ k ∈ dkeys acc ∨ ∃ r ∈ rs, toString r.status_code = k) := by
  induction rs generalizing acc with
  | nil => simp
  | cons r rest ih =>
    rw [List.foldl_cons, ih]
    rw [dkeys_dset acc (toString r.status_code) (Val.dict r.toDict) k]
    constructor
    · rintro ((rfl | hacc) | ⟨r', hr', hk⟩)
      · exact Or.inr ⟨r, List.mem_cons_self r rest, rfl⟩
      · exact Or.inl hacc
      · exact Or.inr ⟨r', List.mem_cons_of_mem r hr', hk⟩
    · rintro (hacc | ⟨r', hr', hk⟩)
      · exact Or.inl (Or.inr hacc)
      · rcases List.mem_cons.1 hr' with rfl | hr'
        · exact Or.inl (Or.inl hk.symm)
        · exact Or.inr ⟨r', hr', hk⟩

theorem respFold_nodup (rs : List ResponseObject)
    (acc : List (String × Val)) (h : (dkeys acc).Nodup) :
    (dkeys (rs.foldl
      (fun a r => dset a (toString r.status_code) (Val.dict r.toDict))
      acc)).Nodup := by
  induction rs generalizing acc with
  | nil => exact h
  | cons r rest ih =>
    rw [List.foldl_cons]
    exact ih _ (dkeys_dset_nodup acc _ _ h)

theorem dkeys_dpop_sublist (d : List (String × Val)) (k : String) :
    List.Sublist (dkeys (dpop d k).2) (dkeys d) := by
  induction d with
  | nil => exact List.Sublist.refl _
  | cons hd tl ih =>
    obtain ⟨k0, v0⟩ := hd
    by_cases h0 : k0 = k
    · subst h0
      rw [dpop_cons_self, dkeys_cons]
      exact List.sublist_cons_self _ _
    · rw [dpop_cons_ne k0 k v0 tl h0, dkeys_cons, dkeys_cons]
      exact List.Sublist.cons₂ _ ih

theorem aliasStep_of_none (e i : String) (d : List (String × Val))
    (h : (dpop d e).1 = Option.none) : aliasStep e i d = (dpop d e).2 := by
  unfold aliasStep
  rw [h]

theorem aliasStep_of_some (e i : String) (d : List (String × Val)) (v : Val)
    (h : (dpop d e).1 = some v) :
    aliasStep e i d =
      if pyTruthy v then dset (dpop d e).2 i v else (dpop d e).2 := by
  unfold aliasStep
  rw [h]

theorem aliasStep_nodup (e i : String) (d : List (String × Val))
    (h : (dkeys d).Nodup) : (dkeys (aliasStep e i d)).Nodup := by
  have hpop : (dkeys (dpop d e).2).Nodup :=
    (dkeys_dpop_sublist d e).nodup h
  cases hv : (dpop d e).1 with
  | none =>
    rw [aliasStep_of_none e i d hv]
    exact hpop
  | some v =>
    rw [aliasStep_of_some e i d v hv]
    by_cases ht : pyTruthy v
    · rw [if_pos ht]
      exact dkeys_dset_nodup _ i v hpop
    · rw [if_neg ht]
      exact hpop

theorem aliasStep_lookup_other (e i x : String) (d : List (String × Val))
    (hxe : x ≠ e) (hxi : x ≠ i) :
    dlookup (aliasStep e i d) x = dlookup d x := by
  have hpop : dlookup (dpop d e).2 x = dlookup d x :=
    dlookup_dpop_other d e x hxe
  cases hv : (dpop d e).1 with
  | none =>
    rw [aliasStep_of_none e i d hv]
    exact hpop
  | some v =>
    rw [aliasStep_of_some e i d v hv]
    by_cases ht : pyTruthy v
    · rw [if_pos ht, dlookup_dset_other _ i x v hxi, hpop]
    · rw [if_neg ht]
      exact hpop

theorem aliasStep_lookup_ext (e i : String) (d : List (String × Val))
    (h : (dkeys d).Nodup) (hne : e ≠ i) :
    dlookup (aliasStep e i d) e = Option.none := by
  have hpop : dlookup (dpop d e).2 e = Option.none :=
    dlookup_dpop_self d e h
  cases hv : (dpop d e).1 with
  | none =>
    rw [aliasStep_of_none e i d hv]
    exact hpop
  | some v =>
    rw [aliasStep_of_some e i d v hv]
    by_cases ht : pyTruthy v
    · rw [if_pos ht, dlookup_dset_other _ i e v hne, hpop]
    · rw [if_neg ht]
      exact hpop

theorem aliasStep_falsy (e i : String) (d : List (String × Val)) (v : Val)
    (hv : dlookup d e = some v) (hf : pyTruthy v = false) (hne : i ≠ e) :
    dlookup (aliasStep e i d) i = dlookup d i := by
  have hfst : (dpop d e).1 = some v := by rw [dpop_fst, hv]
  rw [aliasStep_of_some e i d v hfst]
  rw [if_neg (by rw [hf]; exact Bool.false_ne_true)]
  exact dlookup_dpop_other d e i hne

theorem aliasResolve_nil (d : List (String × Val)) : aliasResolve [] d = d :=
  rfl

theorem aliasResolve_cons (e i : String) (m : List (String × String))
    (d : List (String × Val)) :
    aliasResolve ((e, i) :: m) d = aliasResolve m (aliasStep e i d) := rfl

theorem aliasResolve_nodup (m : List (String × String))
    (d : List (String × Val)) (h : (dkeys d).Nodup) :
    (dkeys (aliasResolve m d)).Nodup := by
  induction m generalizing d with
  | nil => exact h
  | cons p rest ih =>
    obtain ⟨e, i⟩ := p
    rw [aliasResolve_cons]
    exact ih _ (aliasStep_nodup e i d h)

theorem aliasResolve_untouched (m : List (String × String))
    (d : List (String × Val)) (x : String)
    (hx1 : x ∉ m.map Prod.fst) (hx2 : x ∉ m.map Prod.snd) :
    dlookup (aliasResolve m d) x = dlookup d x := by
  induction m generalizing d with
  | nil => rfl
  | cons p rest ih =>
    obtain ⟨e, i⟩ := p
    rw [List.map_cons, List.mem_cons] at hx1 hx2
    push_neg at hx1 hx2
    rw [aliasResolve_cons, ih _ hx1.2 hx2.2,
        aliasStep_lookup_other e i x d hx1.1 hx2.1]

/-- C1, counterexample: `validate` applied to a value that already is an
instance of the expected type does not return the node unchanged — at
`ResponseObject(status_code=200)` it returns the flattened mapping
`value.to_dict()`, not the canonical node. -/
theorem validate_not_identity_on_node :
    validateResponse (ValidateInput.node ⟨200, "OK", [], [], [], []⟩)
        = ValidateOutput.dict [("description", Val.s "OK")]
    ∧ validateResponse (ValidateInput.node ⟨200, "OK", [], [], [], []⟩)
        ≠ ValidateOutput.node ⟨200, "OK", [], [], [], []⟩ := by
  refine ⟨rfl, ?_⟩
  intro h
  exact ValidateOutput.noConfusion h

/-- C1 (amended): for every input that is already an instance of the expected
type, `validate` returns the node's flattened mapping (`value.to_dict()`),
not the canonical node itself; only an `OAPIObjectAttr` input is returned
unchanged by the `elif` branch. -/
theorem validate_flattens_node (r : ResponseObject) :
    validateResponse (ValidateInput.node r) = ValidateOutput.dict r.toDict
    ∧ validateResponse ValidateInput.attr = ValidateOutput.attr :=
  ⟨rfl, rfl⟩

/-- C3: evaluating `SecuritySchemeObject.__post_init__` at the claim's inputs.
Constructing with `type="oauth2"` and empty `flows` SUCCEEDS in the code: the
`flows` assertion is guarded by the literal `'oath2'`, which never equals a
`type` the first assertion admits, so that branch is dead (the spec and the
claim require the construction to fail — the code is the slip).  The apiKey
and http clauses of the claim do hold at the concrete inputs below. -/
theorem securityScheme_postInit_eval :
    SecuritySchemeObject.postInitOk "oauth2" Option.none Option.none []
        Option.none = true
    ∧ SecuritySchemeObject.postInitOk "apiKey" Option.none Option.none []
        Option.none = false
    ∧ SecuritySchemeObject.postInitOk "apiKey" Option.none (some "token") []
        (some "header") = true
    ∧ SecuritySchemeObject.postInitOk "apiKey" Option.none (some "token") []
        (some "body") = false
    ∧ SecuritySchemeObject.postInitOk "http" Option.none Option.none []
        Option.none = false
    ∧ SecuritySchemeObject.postInitOk "http" (some "bearer") Option.none []
        Option.none = true := by
  refine ⟨rfl, rfl, rfl, rfl, rfl, rfl⟩

/-- C4, counterexample: the flattening enumerates `dir(self)`, which sorts
attribute names alphabetically; at a `ResponseObject` with nonempty tags the
surviving keys come out as description, status_code, tags — not in the
declaration order status_code, description, tags required by the claim. -/
theorem toDict_enumeration_not_declaration_order :
    ((ResponseObject.baseToDict ⟨200, "OK", [Val.s "a"], [], [], []⟩).map
        Prod.fst = ["description", "status_code", "tags"])
    ∧ ((ResponseObject.toDictDeclOrder ⟨200, "OK", [Val.s "a"], [], [], []⟩).map
        Prod.fst = ["status_code", "description", "tags"])
    ∧ ((ResponseObject.baseToDict ⟨200, "OK", [Val.s "a"], [], [], []⟩).map
          Prod.fst ≠
        (ResponseObject.toDictDeclOrder ⟨200, "OK", [Val.s "a"], [], [], []⟩).map
          Prod.fst) := by
  refine ⟨rfl, rfl, by decide⟩

/-- C4 (amended): `to_dict` enumerates the node's public non-callable
attributes in ascending alphabetical name order (the sorted order `dir()`
returns) — a stable, deterministic order, though not declaration order — and
the output mapping preserves the encounter order of the surviving fields
(its key sequence is a subsequence of the fixed alphabetical attribute
list, hence strictly sorted). -/
theorem toDict_enumeration_alphabetical (r : ResponseObject) :
    ((r.baseToDict).map Prod.fst).Pairwise (fun a b => pyStrLt a b = true)
    ∧ List.Sublist ((r.baseToDict).map Prod.fst)
        ["content", "description", "headers", "links", "status_code",
         "tags"] := by
  have hsub : List.Sublist
      ((r.baseToDict).map Prod.fst)
      (([("content", Val.dict r.content), ("description", Val.s r.description),
         ("headers", Val.dict r.headers), ("links", Val.list r.links),
         ("status_code", Val.i r.status_code),
         ("tags", Val.list r.tags)]).map Prod.fst) :=
    (List.filter_sublist _).map Prod.fst
  have hconst : (([("content", Val.dict r.content),
      ("description", Val.s r.description), ("headers", Val.dict r.headers),
      ("links", Val.list r.links), ("status_code", Val.i r.status_code),
      ("tags", Val.list r.tags)]).map Prod.fst)
      = ["content", "description", "headers", "links", "status_code",
         "tags"] := rfl
  rw [hconst] at hsub
  refine ⟨?_, hsub⟩
  have hpair : (["content", "description", "headers", "links", "status_code",
      "tags"] : List String).Pairwise (fun a b => pyStrLt a b = true) := by
    decide
  exact hpair.sublist hsub

/-- C5, counterexample: reading an unset descriptor attribute does not return
an empty mapping — `instance.__dict__.get(self.name, instance.__dict__)`
falls back to the instance's whole attribute store, which here is the
nonempty mapping itself. -/
theorem attrGet_unset_not_empty :
    OAPIObjectAttr.get "responses" [("other", Val.i 1)]
        = Val.dict [("other", Val.i 1)]
    ∧ OAPIObjectAttr.get "responses" [("other", Val.i 1)]
        ≠ Val.dict [] := by
  refine ⟨rfl, ?_⟩
  intro h
  injection h with h2
  exact absurd h2 (by simp)

/-- C5 (amended): reading a descriptor attribute before any assignment
returns the instance's entire backing attribute mapping (so an empty mapping
only when no attribute of the instance has been set at all), and the read is
a total function — it never raises. -/
theorem attrGet_unset_returns_store (name : String)
    (d : List (String × Val)) (h : dlookup d name = Option.none) :
    OAPIObjectAttr.get name d = Val.dict d := by
  unfold OAPIObjectAttr.get
  rw [h]

/-- C5 witness: the amended theorem applied at a concrete unset attribute. -/
theorem attrGet_unset_returns_store_witness :
    dlookup [("other", Val.i 1)] "responses" = Option.none
    ∧ OAPIObjectAttr.get "responses" [("other", Val.i 1)]
        = Val.dict [("other", Val.i 1)] :=
  ⟨rfl, attrGet_unset_returns_store "responses" [("other", Val.i 1)] rfl⟩

/-- C6: a `ParameterObject` built with `parameter_in="path"` always comes out
with `required = True`, whatever `required` the caller supplied (the
post-init override `self.required = self.required or bool(self.parameter_in
== 'path')`); and any `parameter_in` outside query/header/path/cookie makes
the construction fail. -/
theorem parameter_path_forces_required (name : String) (schema : Val)
    (description : Option String) (required : Option Bool)
    (deprecated allow_empty_value : Bool) :
    (∃ p, ParameterObject.make name schema "path" description required
        deprecated allow_empty_value = some p ∧ p.required = true)
    ∧ ∀ pin, pin ∉ (["query", "header", "path", "cookie"] : List String) →
        ParameterObject.make name schema pin description required
          deprecated allow_empty_value = Option.none := by
  constructor
  · refine ⟨_, rfl, ?_⟩
    cases required with
    | none => rfl
    | some b => cases b <;> rfl
  · intro pin hpin
    unfold ParameterObject.make
    rw [if_neg hpin]

/-- C6 witness: the spec's own example `ParameterObject(name="id",
parameter_in="path", required=False)` plus a rejected `parameter_in`. -/
theorem parameter_path_forces_required_witness :
    (∃ p, ParameterObject.make "id" Val.none "path" Option.none (some false)
        false false = some p ∧ p.required = true)
    ∧ ("body" ∉ (["query", "header", "path", "cookie"] : List String)
       ∧ ParameterObject.make "id" Val.none "body" Option.none (some false)
           false false = Option.none) :=
  ⟨(parameter_path_forces_required "id" Val.none Option.none (some false)
      false false).1,
   by decide,
   (parameter_path_forces_required "id" Val.none Option.none (some false)
      false false).2 "body" (by decide)⟩

theorem httpStatusTable_sorted :
    httpStatusTable.Pairwise (fun a b => a.1 < b.1) := by
  decide

/-- C7: `get_defaults` returns, for a status list of ints, exactly one
defaulted `ResponseObject` per recognized HTTP status present in the list
(description = the code's reason phrase), in ascending numeric order of the
status codes (the enum's declaration order); unrecognized codes produce no
entry, and a list containing a non-int fails the leading assertion. -/
theorem get_defaults_spec (sl : List Val) :
    ((∀ v ∈ sl, pyIsInt v = true) →
      ∃ l, ResponseObject.get_defaults sl = some l
        ∧ l.Pairwise (fun a b => a.status_code < b.status_code)
        ∧ (∀ r ∈ l, (r.status_code, r.description) ∈ httpStatusTable
            ∧ pyIntMem r.status_code sl = true)
        ∧ (∀ c p, (c, p) ∈ httpStatusTable → pyIntMem c sl = true →
            ∃ r ∈ l, r.status_code = c ∧ r.description = p))
    ∧ ((∃ v ∈ sl, pyIsInt v = false) →
        ResponseObject.get_defaults sl = Option.none) := by
  constructor
  · intro hall
    have hcond : sl.all pyIsInt = true := List.all_eq_true.2 hall
    have heq : ResponseObject.get_defaults sl
        = some ((httpStatusTable.filter (fun p => pyIntMem p.1 sl)).map
            (fun p => ⟨p.1, p.2, [], [], [], []⟩)) := by
      unfold ResponseObject.get_defaults
      rw [if_pos hcond]
    refine ⟨_, heq, ?_, ?_, ?_⟩
    · refine List.Pairwise.map
        (fun p : Int × String => (⟨p.1, p.2, [], [], [], []⟩ : ResponseObject))
        ?_ (httpStatusTable_sorted.filter (fun p => pyIntMem p.1 sl))
      intro a b hab
      exact hab
    · intro r hr
      rcases List.mem_map.1 hr with ⟨p, hp, rfl⟩
      rcases List.mem_filter.1 hp with ⟨hp1, hp2⟩
      exact ⟨hp1, hp2⟩
    · intro c p hcp hmem
      refine ⟨⟨c, p, [], [], [], []⟩, ?_, rfl, rfl⟩
      exact List.mem_map.2 ⟨(c, p), List.mem_filter.2 ⟨hcp, hmem⟩, rfl⟩
  · rintro ⟨v, hv, hfalse⟩
    have hnc : ¬ (sl.all pyIsInt = true) := by
      intro hallc
      rw [List.all_eq_true.1 hallc v hv] at hfalse
      exact Bool.noConfusion hfalse
    unfold ResponseObject.get_defaults
    rw [if_neg hnc]

/-- C7 witness: the spec's own example `get_defaults([404, 400, 200])`. -/
theorem get_defaults_spec_witness :
    (∀ v ∈ [Val.i 404, Val.i 400, Val.i 200], pyIsInt v = true)
    ∧ ∃ l, ResponseObject.get_defaults [Val.i 404, Val.i 400, Val.i 200]
          = some l
        ∧ l.Pairwise (fun a b => a.status_code < b.status_code)
        ∧ (∀ r ∈ l, (r.status_code, r.description) ∈ httpStatusTable
            ∧ pyIntMem r.status_code [Val.i 404, Val.i 400, Val.i 200] = true)
        ∧ (∀ c p, (c, p) ∈ httpStatusTable →
            pyIntMem c [Val.i 404, Val.i 400, Val.i 200] = true →
            ∃ r ∈ l, r.status_code = c ∧ r.description = p) := by
  have h : ∀ v ∈ [Val.i 404, Val.i 400, Val.i 200], pyIsInt v = true := by
    intro v hv
    rcases List.mem_cons.1 hv with rfl | hv
    · rfl
    rcases List.mem_cons.1 hv with rfl | hv
    · rfl
    rcases List.mem_cons.1 hv with rfl | hv
    · rfl
    cases hv
  exact ⟨h, (get_defaults_spec [Val.i 404, Val.i 400, Val.i 200]).1 h⟩

/-- C8: `ResponseObject(status_code=200)` constructs with description
defaulted to "OK", and its `to_dict()` is exactly the mapping containing
only `description: "OK"` — no `status_code` key (popped), and no `content`,
`headers`, `links` or `tags` keys (empty, so omitted by the truthiness
filter). -/
theorem response200_toDict :
    ResponseObject.make 200 Option.none [] = some ⟨200, "OK", [], [], [], []⟩
    ∧ ResponseObject.toDict ⟨200, "OK", [], [], [], []⟩
        = [("description", Val.s "OK")] :=
  ⟨rfl, rfl⟩

/-- C9: `to_dict` is pure and idempotent — with the receiver's state made
explicit, the call returns the node unchanged (the `pop` acts on the freshly
built mapping, never on the node), so a second flattening of the returned
node yields a structurally equal mapping. -/
theorem toDict_pure_idempotent (r : ResponseObject) :
    r.toDictS = (r.toDict, r)
    ∧ ((r.toDictS).2).toDictS.1 = (r.toDictS).1 :=
  ⟨rfl, rfl⟩

/-- C2: `upsert_responses` keys entries by the decimal string of
`status_code`; on a key collision the existing entry wins (the new mapping is
overlaid under the current state by `new | self._responses`); every response
of the batch ends up keyed, no other keys appear, and after the call the
responses map is sorted ascending by lexicographic order of its string
keys. -/
theorem upsert_responses_spec (op : OperationObject)
    (rs : List ResponseObject) (h : (dkeys op.responses).Nodup) :
    (∀ k, k ∈ dkeys op.responses →
        dlookup (op.upsert_responses rs).responses k = dlookup op.responses k)
    ∧ (∀ r ∈ rs,
        toString r.status_code ∈ dkeys (op.upsert_responses rs).responses)
    ∧ (∀ k, k ∈ dkeys (op.upsert_responses rs).responses →
        k ∈ dkeys op.responses ∨ ∃ r ∈ rs, toString r.status_code = k)
    ∧ ((op.upsert_responses rs).responses).Pairwise
        (fun x y => pyStrLe x.1 y.1 = true) := by
  have hresp : (op.upsert_responses rs).responses
      = sortByKey (dunion (rs.foldl
          (fun a r => dset a (toString r.status_code) (Val.dict r.toDict)) [])
          op.responses) := rfl
  have hnodupNew : (dkeys (rs.foldl
      (fun a r => dset a (toString r.status_code) (Val.dict r.toDict))
      [])).Nodup := respFold_nodup rs [] List.nodup_nil
  have hnodupU := dkeys_dunion_nodup _ op.responses hnodupNew
  have hperm := sortByKey_perm (dunion (rs.foldl
      (fun a r => dset a (toString r.status_code) (Val.dict r.toDict)) [])
      op.responses)
  have hkeysperm := hperm.map Prod.fst
  refine ⟨?_, ?_, ?_, ?_⟩
  · intro k hk
    rw [hresp, dlookup_perm _ _ k hnodupU hperm,
        dlookup_dunion_right _ op.responses k h hk]
  · intro r hr
    rw [hresp]
    refine hkeysperm.mem_iff.2 ?_
    refine (mem_dkeys_dunion _ _ _).2 (Or.inl ?_)
    exact (respFold_mem rs [] _).2 (Or.inr ⟨r, hr, rfl⟩)
  · intro k hk
    rw [hresp] at hk
    rcases (mem_dkeys_dunion _ _ _).1 (hkeysperm.mem_iff.1 hk) with hnew | hold
    · rcases (respFold_mem rs [] k).1 hnew with habs | hex
      · exact absurd habs (List.not_mem_nil k)
      · exact Or.inr hex
    · exact Or.inl hold
  · rw [hresp]
    exact sortByKey_pairwise _

/-- C2 witness: the specification's upsert-precedence example, an operation
whose map already holds "200", upserted with a conflicting 200 and a fresh
201. -/
theorem upsert_responses_spec_witness :
    (dkeys upsertExampleOp.responses).Nodup
    ∧ ((∀ k, k ∈ dkeys upsertExampleOp.responses →
          dlookup
              (upsertExampleOp.upsert_responses upsertExampleBatch).responses
              k
            = dlookup upsertExampleOp.responses k)
       ∧ (∀ r ∈ upsertExampleBatch, toString r.status_code
            ∈ dkeys
                (upsertExampleOp.upsert_responses upsertExampleBatch).responses)
       ∧ (∀ k, k ∈ dkeys
              (upsertExampleOp.upsert_responses upsertExampleBatch).responses →
            k ∈ dkeys upsertExampleOp.responses
            ∨ ∃ r ∈ upsertExampleBatch, toString r.status_code = k)
       ∧ ((upsertExampleOp.upsert_responses
            upsertExampleBatch).responses).Pairwise
            (fun x y => pyStrLe x.1 y.1 = true)) :=
  ⟨by decide,
   upsert_responses_spec upsertExampleOp upsertExampleBatch (by decide)⟩

/-- C10: the alias loop of `validate` pops every external alias key of the
expected type's alias table out of the caller's mapping, and when the popped
value is falsy it is dropped entirely — the internal key's binding is exactly
what it was before, so nothing is renamed or passed on.  The hypotheses —
mapping keys duplicate-free, alias columns duplicate-free and disjoint —
hold for every Python dict and for the alias tables the protocol serves. -/
theorem aliasResolve_spec (m : List (String × String))
    (d : List (String × Val))
    (hd : (dkeys d).Nodup) (hfst : (m.map Prod.fst).Nodup)
    (hsnd : (m.map Prod.snd).Nodup)
    (hdisj : ∀ e ∈ m.map Prod.fst, e ∉ m.map Prod.snd) :
    ∀ q ∈ m,
      dlookup (aliasResolve m d) q.1 = Option.none
      ∧ ∀ v, dlookup d q.1 = some v → pyTruthy v = false →
          dlookup (aliasResolve m d) q.2 = dlookup d q.2 := by
  induction m generalizing d with
  | nil =>
    intro q hq
    cases hq
  | cons p0 m2 ih =>
    obtain ⟨e, i⟩ := p0
    rw [List.map_cons, List.nodup_cons] at hfst hsnd
    have hdisj_head := hdisj e
      (by rw [List.map_cons]; exact List.mem_cons_self _ _)
    rw [List.map_cons, List.mem_cons] at hdisj_head
    push_neg at hdisj_head
    have hdisj2 : ∀ x ∈ m2.map Prod.fst, x ∉ m2.map Prod.snd := by
      intro x hx hmem
      have hx2 : x ∈ List.map Prod.fst ((e, i) :: m2) := by
        rw [List.map_cons]
        exact List.mem_cons_of_mem _ hx
      have hxd := hdisj x hx2
      rw [List.map_cons, List.mem_cons] at hxd
      push_neg at hxd
      exact hxd.2 hmem
    intro q hq
    rcases List.mem_cons.1 hq with rfl | hq2
    · constructor
      · show dlookup (aliasResolve ((e, i) :: m2) d) e = Option.none
        rw [aliasResolve_cons,
            aliasResolve_untouched m2 _ e hfst.1 hdisj_head.2]
        exact aliasStep_lookup_ext e i d hd hdisj_head.1
      · intro v hv hfalsy
        show dlookup (aliasResolve ((e, i) :: m2) d) i = dlookup d i
        have hi_not_fst : i ∉ m2.map Prod.fst := by
          intro hmem
          have hx2 : i ∈ List.map Prod.fst ((e, i) :: m2) := by
            rw [List.map_cons]
            exact List.mem_cons_of_mem _ hmem
          have hcontra := hdisj i hx2
          rw [List.map_cons, List.mem_cons] at hcontra
          push_neg at hcontra
          exact hcontra.1 rfl
        rw [aliasResolve_cons,
            aliasResolve_untouched m2 _ i hi_not_fst hsnd.1]
        exact aliasStep_falsy e i d v hv hfalsy
          (fun hh => hdisj_head.1 hh.symm)
    · have hq1_fst : q.1 ∈ m2.map Prod.fst := List.mem_map_of_mem Prod.fst hq2
      have hq2_snd : q.2 ∈ m2.map Prod.snd := List.mem_map_of_mem Prod.snd hq2
      have hq1_ne_e : q.1 ≠ e := fun hh => hfst.1 (hh ▸ hq1_fst)
      have hq1_ne_i : q.1 ≠ i := by
        intro hh
        have hx2 : q.1 ∈ List.map Prod.fst ((e, i) :: m2) := by
          rw [List.map_cons]
          exact List.mem_cons_of_mem _ hq1_fst
        have hcontra := hdisj q.1 hx2
        rw [List.map_cons, List.mem_cons] at hcontra
        push_neg at hcontra
        exact hcontra.1 hh
      have hq2_ne_e : q.2 ≠ e := fun hh => hdisj_head.2 (hh ▸ hq2_snd)
      have hq2_ne_i : q.2 ≠ i := fun hh => hsnd.1 (hh ▸ hq2_snd)
      have ihq := ih (aliasStep e i d) (aliasStep_nodup e i d hd)
        hfst.2 hsnd.2 hdisj2 q hq2
      constructor
      · rw [aliasResolve_cons]
        exact ihq.1
      · intro v hv hfalsy
        rw [aliasResolve_cons]
        have hv2 : dlookup (aliasStep e i d) q.1 = some v := by
          rw [aliasStep_lookup_other e i q.1 d hq1_ne_e hq1_ne_i]
          exact hv
        rw [ihq.2 v hv2 hfalsy]
        exact aliasStep_lookup_other e i q.2 d hq2_ne_e hq2_ne_i

/-- C10 witness: the alias table entry external "in" renaming to internal
"parameter_in", applied to a caller mapping whose "in" value is the falsy
empty string: "in" is removed and "parameter_in" stays absent. -/
theorem aliasResolve_spec_witness :
    ((dkeys [("in", Val.s ""), ("name", Val.s "id")]).Nodup
     ∧ (([("in", "parameter_in")].map Prod.fst).Nodup)
     ∧ (([("in", "parameter_in")].map Prod.snd).Nodup)
     ∧ (∀ e ∈ [("in", "parameter_in")].map Prod.fst,
          e ∉ [("in", "parameter_in")].map Prod.snd))
    ∧ ∀ q ∈ ([("in", "parameter_in")] : List (String × String)),
        dlookup (aliasResolve [("in", "parameter_in")]
            [("in", Val.s ""), ("name", Val.s "id")]) q.1 = Option.none
        ∧ ∀ v, dlookup [("in", Val.s ""), ("name", Val.s "id")] q.1 = some v →
            pyTruthy v = false →
            dlookup (aliasResolve [("in", "parameter_in")]
                [("in", Val.s ""), ("name", Val.s "id")]) q.2
              = dlookup [("in", Val.s ""), ("name", Val.s "id")] q.2 :=
  ⟨⟨by decide, by decide, by decide, by decide⟩,
   aliasResolve_spec [("in", "parameter_in")]
     [("in", Val.s ""), ("name", Val.s "id")]
     (by decide) (by decide) (by decide) (by decide)⟩

end OapiBuilder
